import Mathlib

/-!
Verification of the in-page audio-routing core of the Tab Audio Booster
extension (`src/content/content.js`, class `AudioBooster`).

The embedding is a faithful shallow model of the content script:

* `AudioCtx` models a Web Audio `AudioContext` (the Shared Output
  Pipeline): an identity plus a lifecycle state.  Creating a fresh
  context is environment-dependent (the browser decides its initial
  state), so operations that may create one take the would-be fresh
  context as an explicit parameter; once `audioContext` is non-`none`
  that parameter is ignored, exactly as `getAudioContext` ignores
  `new AudioContext()` once `this.audioContext` is set.
* `Chain` models the per-element processing chain
  (MediaElementSource -> GainNode -> DynamicsCompressor).
* `BoosterState` models the mutable fields of the `AudioBooster`
  instance: `audioContext`, `mediaElements` (a JS `Map`, modelled as an
  insertion-ordered association list keyed by element identity), and
  `gainValue`.
* `MediaEl` models a media element: its object identity and whether
  `createMediaElementSource` succeeds on it (binding fails
  deterministically when the element is already captured by a competing
  audio graph; the JS code observes this as a thrown exception caught in
  `processMediaElement`).
* `Node` models a DOM node handed to the MutationObserver callback:
  name, presence of the `querySelectorAll` capability, bindability, and
  children.  `querySelectorAll('audio, video')` on a node returns its
  proper descendants with a media tag in document (pre-)order.
* Numeric audio parameters are modelled as rationals.
-/

namespace AudioBooster

/-- Lifecycle state of an `AudioContext` (`suspended` / `running` /
`closed` in the Web Audio API; the code only inspects `suspended`). -/
inductive CtxState where
  | suspended
  | running
  | closed
deriving DecidableEq

/-- A Web Audio `AudioContext`: object identity plus lifecycle state. -/
structure AudioCtx where
  ctxId : Nat
  st : CtxState
deriving DecidableEq

/-- A `GainNode`: holds the current amplification factor. -/
structure GainNode where
  gain : ℚ
deriving DecidableEq

/-- A `DynamicsCompressorNode` with the five parameters the code sets. -/
structure Compressor where
  threshold : ℚ
  knee : ℚ
  ratio : ℚ
  attack : ℚ
  release : ℚ
deriving DecidableEq

/-- A `MediaElementAudioSourceNode`: bound to one media element. -/
structure SourceNode where
  mediaElementId : Nat
deriving DecidableEq

/-- The per-element processing chain stored as the value of the
`mediaElements` map: `{ source, gainNode, compressor }`. -/
structure Chain where
  source : SourceNode
  gainNode : GainNode
  compressor : Compressor
deriving DecidableEq

/-- The compressor parameters set in `processMediaElement`:
threshold −6 dB, knee 30, ratio 12, attack 0.003 s, release 0.25 s. -/
def tunedCompressor : Compressor :=
  { threshold := -6, knee := 30, ratio := 12, attack := 3/1000, release := 1/4 }

/-- The chain `processMediaElement` builds for element `elId` when the
current gain value is `g`. -/
def mkChain (elId : Nat) (g : ℚ) : Chain :=
  { source := { mediaElementId := elId }
    gainNode := { gain := g }
    compressor := tunedCompressor }

/-- A media element as seen by `processMediaElement`: object identity
plus whether `createMediaElementSource` succeeds on it (it throws when
the element is already captured by another audio graph). -/
structure MediaEl where
  id : Nat
  bindable : Bool
deriving DecidableEq

/-- The registry: the JS `Map` from media element (by identity) to its
chain, as an insertion-ordered association list. -/
abbrev Registry := List (Nat × Chain)

/-- `Map.prototype.has`: key membership. -/
def mapHas (k : Nat) (m : Registry) : Bool :=
  decide (k ∈ m.map Prod.fst)

/-- `Map.prototype.get`. -/
def mapGet (k : Nat) (m : Registry) : Option Chain :=
  (m.find? (fun p => p.1 = k)).map Prod.snd

/-- `Map.prototype.set`: replaces in place if the key is present,
appends otherwise (JS `Map` preserves insertion order). -/
def mapSet (k : Nat) (v : Chain) (m : Registry) : Registry :=
  if mapHas k m then m.map (fun p => if p.1 = k then (k, v) else p)
  else m ++ [(k, v)]

/-- The mutable fields of the `AudioBooster` instance:
`this.audioContext`, `this.mediaElements`, `this.gainValue`. -/
structure BoosterState where
  audioContext : Option AudioCtx
  mediaElements : Registry
  gainValue : ℚ
deriving DecidableEq

/-- The state the constructor establishes before any discovery:
`audioContext = null`, empty map, `gainValue = 1.0`. -/
def initialState : BoosterState :=
  { audioContext := none, mediaElements := [], gainValue := 1 }

/-- `getAudioContext()`: returns the shared context, creating it (here:
installing the environment-provided `fresh` one) only if absent. -/
def getAudioContext (fresh : AudioCtx) (s : BoosterState) :
    AudioCtx × BoosterState :=
  match s.audioContext with
  | none => (fresh, { s with audioContext := some fresh })
  | some c => (c, s)

/-- `processMediaElement(element)`: skip if already in the map;
otherwise obtain the shared context, then try to build and register the
chain.  `createMediaElementSource` throwing (modelled by
`el.bindable = false`) is caught: the catch block only logs, so the
state after the context was obtained is returned unchanged. -/
def processMediaElement (fresh : AudioCtx) (el : MediaEl)
    (s : BoosterState) : BoosterState :=
  if mapHas el.id s.mediaElements then s
  else
    let s1 := (getAudioContext fresh s).2
    if el.bindable then
      { s1 with
        mediaElements := mapSet el.id (mkChain el.id s1.gainValue)
          s1.mediaElements }
    else s1

/-- The resume step of `setGain`: `if (this.audioContext &&
this.audioContext.state === 'suspended') this.audioContext.resume()`.
`resume()` moves a suspended context to `running` without replacing the
object. -/
def resumeIfSuspended : Option AudioCtx → Option AudioCtx
  | none => none
  | some c =>
      if c.st = CtxState.suspended then some { c with st := CtxState.running }
      else some c

/-- `setGain(value)`: stores the value in `this.gainValue`, resumes the
context if it exists and is suspended, and writes the value into every
registered chain's gain node. -/
def setGain (v : ℚ) (s : BoosterState) : BoosterState :=
  { audioContext := resumeIfSuspended s.audioContext
    mediaElements :=
      s.mediaElements.map (fun p => (p.1, { p.2 with gainNode := { gain := v } }))
    gainValue := v }

/-- `getMediaCount()`: `this.mediaElements.size`. -/
def getMediaCount (s : BoosterState) : Nat :=
  s.mediaElements.length

/-- A runtime message as received by the listener: `message.type` plus
the payload field `message.value` used by `SET_GAIN`. -/
structure Message where
  type : String
  value : ℚ

/-- A payload passed to `sendResponse`. -/
inductive Response where
  | setGainResp (success : Bool) (mediaCount : Nat)
  | statusResp (gain : ℚ) (mediaCount : Nat)
deriving DecidableEq

/-- The body of the `chrome.runtime.onMessage` listener installed by
`setupMessageListener`: returns the state after handling, the list of
`sendResponse` invocations (in order), and the listener's return value
(always `true`, which tells the platform to keep the response channel
open for an asynchronous response). -/
def handleMessage (msg : Message) (s : BoosterState) :
    BoosterState × List Response × Bool :=
  if msg.type = "SET_GAIN" then
    let s' := setGain msg.value s
    (s', [Response.setGainResp true (getMediaCount s')], true)
  else if msg.type = "GET_STATUS" then
    (s, [Response.statusResp s.gainValue (getMediaCount s)], true)
  else
    (s, [], true)

/-- A DOM node as delivered to the MutationObserver callback: identity,
`nodeName`, whether it has the `querySelectorAll` capability, whether a
source can be bound to it, and its children. -/
inductive Node where
  | mk (nid : Nat) (nodeName : String) (hasQSA : Bool) (bindable : Bool)
      (children : List Node)

def Node.nid : Node → Nat
  | .mk i _ _ _ _ => i

def Node.nodeName : Node → String
  | .mk _ nm _ _ _ => nm

def Node.hasQSA : Node → Bool
  | .mk _ _ q _ _ => q

def Node.bindable : Node → Bool
  | .mk _ _ _ b _ => b

def Node.children : Node → List Node
  | .mk _ _ _ _ cs => cs

/-- `node.nodeName === 'AUDIO' || node.nodeName === 'VIDEO'`. -/
def isMediaName (nm : String) : Bool :=
  nm = "AUDIO" || nm = "VIDEO"

/-- The media element a node denotes when passed to
`processMediaElement`. -/
def Node.toMediaEl (n : Node) : MediaEl :=
  { id := n.nid, bindable := n.bindable }

mutual
/-- All media-tagged elements of a node's subtree, itself included, in
document (pre-)order. -/
def Node.subtreeMedia : Node → List MediaEl
  | .mk i nm _ b cs =>
      (if isMediaName nm then [⟨i, b⟩] else []) ++ subtreeMediaList cs

/-- All media-tagged elements of a forest, in document order. -/
def subtreeMediaList : List Node → List MediaEl
  | [] => []
  | c :: cs => c.subtreeMedia ++ subtreeMediaList cs
end

/-- `node.querySelectorAll('audio, video')`: every media-tagged proper
descendant of the node, in document order (the node itself is never in
its own query results). -/
def qsaMedia (n : Node) : List MediaEl :=
  subtreeMediaList n.children

/-- `mediaElements.forEach(element => this.processMediaElement(element))`
over a list of discovered elements. -/
def processList (fresh : AudioCtx) (es : List MediaEl)
    (s : BoosterState) : BoosterState :=
  es.foldl (fun st e => processMediaElement fresh e st) s

/-- The per-added-node body of the MutationObserver callback: process
the node itself if it is a media element, then, if the node has the
`querySelectorAll` capability, process every media-tagged descendant. -/
def handleAddedNode (fresh : AudioCtx) (n : Node)
    (s : BoosterState) : BoosterState :=
  let s1 := if isMediaName n.nodeName then
      processMediaElement fresh n.toMediaEl s
    else s
  if n.hasQSA then processList fresh (qsaMedia n) s1 else s1

/-- `mutation.addedNodes.forEach(...)`: the callback over a list of
added nodes. -/
def handleAddedNodeList (fresh : AudioCtx) (ns : List Node)
    (s : BoosterState) : BoosterState :=
  ns.foldl (fun st n => handleAddedNode fresh n st) s

/-- Number of registry entries carrying a given key. -/
def keysCount (k : Nat) (m : Registry) : Nat :=
  (m.map Prod.fst).count k

/-- A state with one registered chain and a suspended pipeline, used as
a concrete instantiation in witnesses. -/
def sampleChainState : BoosterState :=
  { audioContext := some ⟨0, CtxState.suspended⟩
    mediaElements := [(5, mkChain 5 1)]
    gainValue := 1 }

/-- A media element that cannot be bound (already captured by a
competing audio graph). -/
def unboundEl : MediaEl :=
  { id := 0, bindable := false }

/-- A concrete context standing in for `new AudioContext()`. -/
def freshCtx : AudioCtx :=
  { ctxId := 0, st := CtxState.running }

/-- A leaf `<audio>` element node. -/
def audioNode (i : Nat) : Node :=
  Node.mk i "AUDIO" true true []

/-- A widget subtree containing three nested `<audio>` elements, as in
a bulk DOM insertion of an entire player widget. -/
def widgetNode : Node :=
  Node.mk 100 "DIV" true true
    [Node.mk 101 "SPAN" true true [audioNode 1], audioNode 2, audioNode 3]

/-- A character-data node: no `querySelectorAll` capability, despite
having media in its (model) subtree. -/
def textNode : Node :=
  Node.mk 200 "#text" false false [audioNode 9]

end AudioBooster

/-! ## Basic lemmas about the registry and the operations -/

namespace AudioBooster

theorem mapHas_iff {k : Nat} {m : Registry} :
    mapHas k m = true ↔ k ∈ m.map Prod.fst := by
  simp [mapHas]

theorem mapHas_false_iff {k : Nat} {m : Registry} :
    mapHas k m = false ↔ k ∉ m.map Prod.fst := by
  simp [mapHas]

theorem getAudioContext_mediaElements (fresh : AudioCtx) (s : BoosterState) :
    (getAudioContext fresh s).2.mediaElements = s.mediaElements := by
  cases h : s.audioContext <;> simp [getAudioContext, h]

theorem getAudioContext_gainValue (fresh : AudioCtx) (s : BoosterState) :
    (getAudioContext fresh s).2.gainValue = s.gainValue := by
  cases h : s.audioContext <;> simp [getAudioContext, h]

theorem mapHas_append_self (k : Nat) (v : Chain) (m : Registry) :
    mapHas k (m ++ [(k, v)]) = true := by
  simp [mapHas]

theorem mapHas_mono_append {k : Nat} {m : Registry} (e : Nat × Chain)
    (h : mapHas k m = true) : mapHas k (m ++ [e]) = true := by
  rw [mapHas_iff] at h ⊢
  simp [h]

theorem mapGet_cons (k : Nat) (p : Nat × Chain) (l : Registry) :
    mapGet k (p :: l) = if p.1 = k then some p.2 else mapGet k l := by
  by_cases h : p.1 = k <;> simp [mapGet, List.find?_cons, h]

theorem mapGet_append_self {k : Nat} {m : Registry} (v : Chain)
    (h : mapHas k m = false) : mapGet k (m ++ [(k, v)]) = some v := by
  rw [mapHas_false_iff] at h
  induction m with
  | nil => simp [mapGet, List.find?]
  | cons p m ih =>
      simp only [List.map_cons, List.mem_cons, not_or] at h
      have hk : ¬ p.1 = k := fun hq => h.1 hq.symm
      rw [List.cons_append, mapGet_cons]
      simp only [hk, if_false]
      exact ih h.2

end AudioBooster

/-! ## Lemmas about `processMediaElement` and discovery -/

namespace AudioBooster

theorem processMediaElement_of_has {fresh : AudioCtx} {el : MediaEl}
    {s : BoosterState} (h : mapHas el.id s.mediaElements = true) :
    processMediaElement fresh el s = s := by
  simp [processMediaElement, h]

theorem processMediaElement_registers {el : MediaEl} (fresh : AudioCtx)
    (s : BoosterState) (hb : el.bindable = true) :
    mapHas el.id (processMediaElement fresh el s).mediaElements = true := by
  by_cases h : mapHas el.id s.mediaElements = true
  · rw [processMediaElement_of_has h]; exact h
  · rw [Bool.not_eq_true] at h
    simp only [processMediaElement, h, Bool.false_eq_true, if_false, hb,
      if_true]
    rw [mapSet, getAudioContext_mediaElements, h]
    simp only [Bool.false_eq_true, if_false]
    exact mapHas_append_self _ _ _

theorem processMediaElement_mono {k : Nat} (fresh : AudioCtx) (el : MediaEl)
    (s : BoosterState) (h : mapHas k s.mediaElements = true) :
    mapHas k (processMediaElement fresh el s).mediaElements = true := by
  by_cases hh : mapHas el.id s.mediaElements = true
  · rw [processMediaElement_of_has hh]; exact h
  · rw [Bool.not_eq_true] at hh
    cases hb : el.bindable with
    | false =>
        simp only [processMediaElement, hh, Bool.false_eq_true, if_false, hb]
        rw [getAudioContext_mediaElements]; exact h
    | true =>
        simp only [processMediaElement, hh, Bool.false_eq_true, if_false, hb,
          if_true]
        rw [mapSet, getAudioContext_mediaElements, hh]
        simp only [Bool.false_eq_true, if_false]
        exact mapHas_mono_append _ h

theorem processList_mono {k : Nat} (fresh : AudioCtx) (es : List MediaEl)
    (s : BoosterState) (h : mapHas k s.mediaElements = true) :
    mapHas k (processList fresh es s).mediaElements = true := by
  induction es generalizing s with
  | nil => exact h
  | cons e es ih =>
      exact ih _ (processMediaElement_mono fresh e s h)

theorem processList_registers {e : MediaEl} {es : List MediaEl}
    (fresh : AudioCtx) (s : BoosterState) (hmem : e ∈ es)
    (hb : e.bindable = true) :
    mapHas e.id (processList fresh es s).mediaElements = true := by
  induction es generalizing s with
  | nil => cases hmem
  | cons a es ih =>
      rcases List.mem_cons.1 hmem with h | h
      · subst h
        exact processList_mono fresh es _
          (processMediaElement_registers fresh s hb)
      · exact ih (processMediaElement fresh a s) h

end AudioBooster

/-! ## Claim theorems -/

namespace AudioBooster

theorem setGain_chain_gain {v : ℚ} {s : BoosterState} {p : Nat × Chain}
    (hp : p ∈ (setGain v s).mediaElements) : p.2.gainNode.gain = v := by
  simp only [setGain, List.mem_map] at hp
  obtain ⟨q, hq, rfl⟩ := hp
  rfl

/-- C1: for every positive gain factor `g` and every state, `setGain g`
sets the gain stage of every chain currently in the registry to `g` and
sets the process-wide gain state (`this.gainValue`) to `g` before
returning. -/
theorem setGain_sets_all_chains (g : ℚ) (_hg : 0 < g) (s : BoosterState) :
    (setGain g s).gainValue = g ∧
      ∀ p ∈ (setGain g s).mediaElements, p.2.gainNode.gain = g :=
  ⟨rfl, fun _ hp => setGain_chain_gain hp⟩

/-- Witness for C1 at `g = 3` on a state with one registered chain. -/
theorem setGain_sets_all_chains_witness :
    (setGain 3 sampleChainState).gainValue = 3 ∧
      ∀ p ∈ (setGain 3 sampleChainState).mediaElements,
        p.2.gainNode.gain = 3 :=
  setGain_sets_all_chains 3 (by norm_num) sampleChainState

/-- C7: the Shared Output Pipeline is a lazily created singleton:
`getAudioContext` installs a context only when none exists and returns
the stored one unchanged otherwise; `setGain` resumes a suspended
context in place (same identity, state moved to running), leaves a
non-suspended context untouched, and never creates a context when none
exists. -/
theorem pipeline_singleton (fresh : AudioCtx) (v : ℚ) (s : BoosterState) :
    (s.audioContext = none →
       getAudioContext fresh s =
         (fresh, { s with audioContext := some fresh })) ∧
    (∀ c, s.audioContext = some c → getAudioContext fresh s = (c, s)) ∧
    (∀ c, s.audioContext = some c → c.st = CtxState.suspended →
       (setGain v s).audioContext = some ⟨c.ctxId, CtxState.running⟩) ∧
    (∀ c, s.audioContext = some c → c.st ≠ CtxState.suspended →
       (setGain v s).audioContext = some c) ∧
    (s.audioContext = none → (setGain v s).audioContext = none) := by
  refine ⟨?_, ?_, ?_, ?_, ?_⟩
  · intro h; simp [getAudioContext, h]
  · intro c h; simp [getAudioContext, h]
  · intro c h hs
    simp [setGain, resumeIfSuspended, h, hs]
  · intro c h hs
    simp [setGain, resumeIfSuspended, h, hs]
  · intro h; simp [setGain, resumeIfSuspended, h]

/-- Witness for C7: lazy creation from the initial state, and in-place
resume of the suspended pipeline of `sampleChainState`. -/
theorem pipeline_singleton_witness :
    getAudioContext ⟨7, CtxState.running⟩ initialState =
      (⟨7, CtxState.running⟩,
       { initialState with audioContext := some ⟨7, CtxState.running⟩ }) ∧
    (setGain 2 sampleChainState).audioContext =
      some ⟨0, CtxState.running⟩ :=
  ⟨(pipeline_singleton ⟨7, CtxState.running⟩ 2 initialState).1 rfl,
   (pipeline_singleton ⟨7, CtxState.running⟩ 2 sampleChainState).2.2.1
     ⟨0, CtxState.suspended⟩ rfl rfl⟩

/-- C8: a `GET_STATUS` request mutates nothing: the state returned is
exactly the state received, and the single response carries the current
gain value and registry count. -/
theorem getStatus_pure (s : BoosterState) (v : ℚ) :
    handleMessage ⟨"GET_STATUS", v⟩ s =
      (s, [Response.statusResp s.gainValue (getMediaCount s)], true) := by
  simp [handleMessage]

/-- C10: a `SET_GAIN` request is handled without any validation of the
carried value: for every rational `v` (zero and negative values
included), the value is stored as the gain state, applied to every
registered chain, and the single response is `success: true` with the
current media count. -/
theorem setGainRequest_no_validation (s : BoosterState) (v : ℚ) :
    (handleMessage ⟨"SET_GAIN", v⟩ s).1.gainValue = v ∧
    (∀ p ∈ (handleMessage ⟨"SET_GAIN", v⟩ s).1.mediaElements,
       p.2.gainNode.gain = v) ∧
    (handleMessage ⟨"SET_GAIN", v⟩ s).2 =
      ([Response.setGainResp true (getMediaCount s)], true) := by
  refine ⟨rfl, ?_, ?_⟩
  · intro p hp
    exact setGain_chain_gain hp
  · simp [handleMessage, getMediaCount, setGain]

/-- C4 (failing input): a request whose `type` is neither `SET_GAIN`
nor `GET_STATUS` falls through both branches, so `sendResponse` is
invoked zero times, while the listener still returns `true` and keeps
the response channel open — the caller is never answered.  Recognized
requests do get exactly one response. -/
theorem unrecognized_request_gets_no_response :
    (handleMessage ⟨"PING", 0⟩ initialState).2.1 = [] ∧
    (handleMessage ⟨"PING", 0⟩ initialState).2.2 = true ∧
    (handleMessage ⟨"SET_GAIN", 2⟩ initialState).2.1.length = 1 ∧
    (handleMessage ⟨"GET_STATUS", 0⟩ initialState).2.1.length = 1 := by
  refine ⟨?_, rfl, rfl, ?_⟩ <;> simp [handleMessage]

end AudioBooster

namespace AudioBooster

/-- C2: a chain built by `processMediaElement` after `setGain g`, with
no intervening `setGain`, is initialized with gain `g`, not unity: the
builder reads the current gain state at build time. -/
theorem chain_built_after_setGain_inherits (g : ℚ) (_hg : 0 < g)
    (s : BoosterState) (el : MediaEl) (fresh : AudioCtx)
    (hnot : mapHas el.id (setGain g s).mediaElements = false)
    (hb : el.bindable = true) :
    mapGet el.id
        (processMediaElement fresh el (setGain g s)).mediaElements =
      some (mkChain el.id g) := by
  simp only [processMediaElement, hnot, Bool.false_eq_true, if_false, hb,
    if_true]
  rw [mapSet, getAudioContext_mediaElements, getAudioContext_gainValue, hnot]
  simp only [Bool.false_eq_true, if_false]
  exact mapGet_append_self _ hnot

/-- Witness for C2: an element discovered after `setGain 2` gets a
chain with gain 2. -/
theorem chain_built_after_setGain_inherits_witness :
    mapGet 3
        (processMediaElement freshCtx ⟨3, true⟩
          (setGain 2 initialState)).mediaElements =
      some (mkChain 3 2) :=
  chain_built_after_setGain_inherits 2 (by norm_num) initialState
    ⟨3, true⟩ freshCtx rfl rfl

/-- C5 (counterexample): processing an unbindable, unregistered element
when no pipeline exists is not free of observable side effects — the
shared `AudioContext` is created before the binding attempt, so the
failed build still changes the state. -/
theorem failed_build_creates_pipeline :
    unboundEl.bindable = false ∧
    mapHas unboundEl.id initialState.mediaElements = false ∧
    initialState.audioContext = none ∧
    (processMediaElement freshCtx unboundEl initialState).audioContext =
      some freshCtx ∧
    processMediaElement freshCtx unboundEl initialState ≠ initialState := by
  refine ⟨rfl, rfl, rfl, rfl, fun h => ?_⟩
  have h2 := congrArg BoosterState.audioContext h
  rw [show (processMediaElement freshCtx unboundEl initialState).audioContext
        = some freshCtx from rfl,
      show initialState.audioContext = none from rfl] at h2
  exact Option.noConfusion h2

/-- C5 (amended): when building a chain fails (unregistered element,
binding throws), no registry entry is created, the gain state and every
existing chain are unchanged, and the failure is swallowed; the only
possible state change is the lazy creation of the Shared Output
Pipeline, which happens before the binding attempt. -/
theorem failed_build_no_partial_registration (fresh : AudioCtx)
    (el : MediaEl) (s : BoosterState)
    (hnot : mapHas el.id s.mediaElements = false)
    (hb : el.bindable = false) :
    (processMediaElement fresh el s).mediaElements = s.mediaElements ∧
    (processMediaElement fresh el s).gainValue = s.gainValue ∧
    (∀ c, s.audioContext = some c →
        (processMediaElement fresh el s).audioContext = some c) ∧
    (s.audioContext = none →
        (processMediaElement fresh el s).audioContext = some fresh) := by
  have h1 : processMediaElement fresh el s = (getAudioContext fresh s).2 := by
    simp [processMediaElement, hnot, hb]
  rw [h1]
  refine ⟨getAudioContext_mediaElements _ _, getAudioContext_gainValue _ _,
    ?_, ?_⟩
  · intro c h; simp [getAudioContext, h]
  · intro h; simp [getAudioContext, h]

/-- Witness for the amended C5 at a concrete unbindable element. -/
theorem failed_build_no_partial_registration_witness :
    (processMediaElement freshCtx unboundEl initialState).mediaElements =
        initialState.mediaElements ∧
    (processMediaElement freshCtx unboundEl initialState).gainValue =
        initialState.gainValue ∧
    (processMediaElement freshCtx unboundEl initialState).audioContext =
        some freshCtx :=
  ⟨(failed_build_no_partial_registration freshCtx unboundEl initialState
      rfl rfl).1,
   (failed_build_no_partial_registration freshCtx unboundEl initialState
      rfl rfl).2.1,
   (failed_build_no_partial_registration freshCtx unboundEl initialState
      rfl rfl).2.2.2 rfl⟩

end AudioBooster

namespace AudioBooster

/-- C3: discovery is idempotent per element: processing an
already-registered element is a no-op returning the state unchanged,
processing twice equals processing once, and after processing a
bindable element its key is in the registry exactly once. -/
theorem discovery_idempotent (fresh fp : AudioCtx) (el : MediaEl)
    (s : BoosterState) :
    (mapHas el.id s.mediaElements = true →
       processMediaElement fresh el s = s) ∧
    processMediaElement fp el (processMediaElement fresh el s) =
      processMediaElement fresh el s ∧
    (keysCount el.id s.mediaElements ≤ 1 → el.bindable = true →
       keysCount el.id (processMediaElement fresh el s).mediaElements = 1) := by
  refine ⟨fun h => processMediaElement_of_has h, ?_, ?_⟩
  · by_cases hh : mapHas el.id s.mediaElements = true
    · rw [processMediaElement_of_has hh, processMediaElement_of_has hh]
    · cases hb : el.bindable with
      | true =>
          exact processMediaElement_of_has
            (processMediaElement_registers fresh s hb)
      | false =>
          rw [Bool.not_eq_true] at hh
          have h1 : processMediaElement fresh el s =
              (getAudioContext fresh s).2 := by
            simp [processMediaElement, hh, hb]
          have hh2 : mapHas el.id
              ((getAudioContext fresh s).2).mediaElements = false := by
            rw [getAudioContext_mediaElements]; exact hh
          have h2 : processMediaElement fp el ((getAudioContext fresh s).2) =
              (getAudioContext fp ((getAudioContext fresh s).2)).2 := by
            simp [processMediaElement, hh2, hb]
          rw [h1, h2]
          cases hc : s.audioContext <;> simp [getAudioContext, hc]
  · intro hle hb
    by_cases hh : mapHas el.id s.mediaElements = true
    · rw [processMediaElement_of_has hh]
      rw [mapHas_iff] at hh
      have hpos : 0 < keysCount el.id s.mediaElements :=
        List.count_pos_iff.2 hh
      omega
    · rw [Bool.not_eq_true] at hh
      simp only [processMediaElement, hh, Bool.false_eq_true, if_false, hb,
        if_true]
      rw [mapSet, getAudioContext_mediaElements, hh]
      simp only [Bool.false_eq_true, if_false]
      have hz : keysCount el.id s.mediaElements = 0 := by
        rw [keysCount, List.count_eq_zero]
        exact mapHas_false_iff.1 hh
      rw [keysCount, List.map_append, List.count_append]
      rw [keysCount] at hz
      simp [hz]

end AudioBooster

namespace AudioBooster

/-- C6: for a node insertion observed by the MutationObserver, every
media-tagged element is processed: the inserted node itself when it is
a media element, and (when the node has the `querySelectorAll`
capability) every media-tagged descendant, nested media in a bulk
subtree insertion included; every such bindable element ends up
registered with no additional discovery calls. -/
theorem observer_discovers_all (fresh : AudioCtx) (n : Node)
    (s : BoosterState) (e : MediaEl) (hq : n.hasQSA = true)
    (he : e ∈ qsaMedia n ∨
          (isMediaName n.nodeName = true ∧ e = n.toMediaEl))
    (hb : e.bindable = true) :
    mapHas e.id (handleAddedNode fresh n s).mediaElements = true := by
  have hres : handleAddedNode fresh n s =
      processList fresh (qsaMedia n)
        (if isMediaName n.nodeName then
           processMediaElement fresh n.toMediaEl s
         else s) := by
    simp [handleAddedNode, hq]
  rw [hres]
  rcases he with he | ⟨hm, rfl⟩
  · exact processList_registers fresh _ he hb
  · simp only [hm, if_true]
    exact processList_mono fresh _ _
      (processMediaElement_registers fresh s hb)

/-- Witness for C6: a widget inserted with three nested audio elements
registers all three in one callback. -/
theorem observer_discovers_all_witness :
    mapHas 1 (handleAddedNode freshCtx widgetNode initialState).mediaElements
      = true ∧
    mapHas 2 (handleAddedNode freshCtx widgetNode initialState).mediaElements
      = true ∧
    mapHas 3 (handleAddedNode freshCtx widgetNode initialState).mediaElements
      = true :=
  ⟨observer_discovers_all freshCtx widgetNode initialState ⟨1, true⟩ rfl
      (Or.inl (by simp [qsaMedia, widgetNode, audioNode, Node.subtreeMedia,
        subtreeMediaList, isMediaName])) rfl,
   observer_discovers_all freshCtx widgetNode initialState ⟨2, true⟩ rfl
      (Or.inl (by simp [qsaMedia, widgetNode, audioNode, Node.subtreeMedia,
        subtreeMediaList, isMediaName])) rfl,
   observer_discovers_all freshCtx widgetNode initialState ⟨3, true⟩ rfl
      (Or.inl (by simp [qsaMedia, widgetNode, audioNode, Node.subtreeMedia,
        subtreeMediaList, isMediaName])) rfl⟩

/-- C9: a notified node without the `querySelectorAll` capability is
silently skipped: if it is not itself a media element the callback
leaves the state untouched (its subtree is treated as containing no
nested media), and processing of the remaining added nodes continues
from that state. -/
theorem node_without_query_capability_skipped (fresh : AudioCtx)
    (n : Node) (rest : List Node) (s : BoosterState)
    (hq : n.hasQSA = false) :
    (isMediaName n.nodeName = false → handleAddedNode fresh n s = s) ∧
    handleAddedNodeList fresh (n :: rest) s =
      handleAddedNodeList fresh rest (handleAddedNode fresh n s) := by
  constructor
  · intro hm; simp [handleAddedNode, hq, hm]
  · rfl

/-- Witness for C9: a character-data node whose model subtree even
contains an audio element changes nothing, and the rest of the batch is
still processed. -/
theorem node_without_query_capability_skipped_witness :
    handleAddedNode freshCtx textNode initialState = initialState ∧
    handleAddedNodeList freshCtx [textNode, audioNode 4] initialState =
      handleAddedNodeList freshCtx [audioNode 4]
        (handleAddedNode freshCtx textNode initialState) :=
  ⟨(node_without_query_capability_skipped freshCtx textNode []
      initialState rfl).1 rfl,
   (node_without_query_capability_skipped freshCtx textNode [audioNode 4]
      initialState rfl).2⟩

end AudioBooster

namespace AudioBooster

/-- Witness for C3: re-discovering the already-registered element of
`sampleChainState` changes nothing, and its key stays in the registry
exactly once. -/
theorem discovery_idempotent_witness :
    processMediaElement freshCtx ⟨5, true⟩ sampleChainState =
      sampleChainState ∧
    keysCount 5
      (processMediaElement freshCtx ⟨5, true⟩
        sampleChainState).mediaElements = 1 :=
  ⟨(discovery_idempotent freshCtx freshCtx ⟨5, true⟩ sampleChainState).1 rfl,
   (discovery_idempotent freshCtx freshCtx ⟨5, true⟩ sampleChainState).2.2
     (by decide) rfl⟩

end AudioBooster
